import Mathlib

/-!
Shallow embedding of the GPT-Neo local self-attention helpers from
`src/gpt_neo/attention.rs` (trait `GptNeoAttention`).

Tensors are modelled as a shape (list of dimension sizes) together with a
row-major flat list of rational entries.  The tch/torch primitives the code
delegates to (`view`, `reshape`, `permute`, `transpose`, `constant_pad_nd`,
`unfold`, `matmul`, `softmax`, `where1`, scalar add/sub) are given their
documented elementwise semantics below; primitives that panic in torch on
incompatible sizes are modelled as `Option`/a library-error value.  The
pointwise exponential used by softmax and the train-mode action of `Dropout`
are randomness/number-theoretic externals of the underlying library and are
taken as explicit function parameters.
-/

/-- Row-major linear index of a multi-index in a shape. -/
def encodeIdx : List Nat → List Nat → Nat
  | [], _ => 0
  | _ :: ss, idx => idx.headD 0 * ss.prod + encodeIdx ss idx.tail

/-- Multi-index of a row-major linear index in a shape. -/
def decodeIdx : List Nat → Nat → List Nat
  | [], _ => []
  | _ :: ss, l => l / ss.prod :: decodeIdx ss (l % ss.prod)

/-- A multi-index is valid for a shape when it has the same rank and every
coordinate is strictly below the corresponding dimension size. -/
def IdxValid (idx shape : List Nat) : Prop := List.Forall₂ (· < ·) idx shape

/-- Decision procedure for `IdxValid`. -/
def idxValidDec : (idx shape : List Nat) → Decidable (IdxValid idx shape)
  | [], [] => isTrue List.Forall₂.nil
  | [], _ :: _ => isFalse (fun h => by cases h)
  | _ :: _, [] => isFalse (fun h => by cases h)
  | i :: is, s :: ss =>
    match Nat.decLt i s, idxValidDec is ss with
    | isTrue h1, isTrue h2 => isTrue (List.Forall₂.cons h1 h2)
    | isFalse h1, _ => isFalse (fun h => by cases h with | cons ha hb => exact h1 ha)
    | _, isFalse h2 => isFalse (fun h => by cases h with | cons ha hb => exact h2 hb)

instance (idx shape : List Nat) : Decidable (IdxValid idx shape) := idxValidDec idx shape

/-- A tensor: a shape and a row-major flat list of entries. -/
structure Tensor where
  shape : List Nat
  data : List ℚ
deriving DecidableEq, Repr

/-- A tensor is well formed when its data list has exactly one entry per
position of its shape. -/
def Tensor.wf (t : Tensor) : Prop := t.data.length = t.shape.prod

/-- The entry of a tensor at a multi-index (0 out of range). -/
def Tensor.entry (t : Tensor) (idx : List Nat) : ℚ := t.data.getD (encodeIdx t.shape idx) 0

/-- Build a tensor of a given shape from an entry function. -/
def materialize (shape : List Nat) (f : List Nat → ℚ) : Tensor :=
  ⟨shape, (List.range shape.prod).map fun l => f (decodeIdx shape l)⟩

/-! ### Modelled tch/torch primitives used by the attention module -/

/-- `Tensor::view` (also `reshape` in this always-contiguous model): reinterpret
the data with a new shape; torch panics unless the element counts agree, which
is modelled by `none`. -/
def Tensor.view (t : Tensor) (s : List Nat) : Option Tensor :=
  if s.prod = t.shape.prod then some ⟨s, t.data⟩ else none

/-- `Tensor::reshape` with explicit nonnegative sizes: same element-count
condition and result as `view` for contiguous tensors. -/
def Tensor.reshape (t : Tensor) (s : List Nat) : Option Tensor := t.view s

/-- `Tensor::permute`: dimension `k` of the result is dimension `perm k` of the
input. -/
def Tensor.permute (t : Tensor) (perm : List Nat) : Tensor :=
  materialize (perm.map fun d => t.shape.getD d 0)
    (fun idx => t.entry ((List.range t.shape.length).map fun d => idx.getD (perm.indexOf d) 0))

/-- `Tensor::transpose` on two (possibly negative, i.e. counted from the back)
dimension indices: swap the two dimensions. -/
def Tensor.transpose (t : Tensor) (d1 d2 : Int) : Tensor :=
  let n : Int := t.shape.length
  let a : Nat := (if d1 < 0 then d1 + n else d1).toNat
  let b : Nat := (if d2 < 0 then d2 + n else d2).toNat
  materialize ((t.shape.set a (t.shape.getD b 0)).set b (t.shape.getD a 0))
    (fun idx => t.entry ((idx.set a (idx.getD b 0)).set b (idx.getD a 0)))

/-- Left padding that `Tensor::constant_pad_nd` applies to dimension `d` of a
rank-`r` tensor: the pad list holds (left, right) pairs for the dimensions
taken from the last backwards. -/
def padLeft (pad : List Nat) (r d : Nat) : Nat := pad.getD (2 * (r - 1 - d)) 0

/-- Right padding applied to dimension `d`, see `padLeft`. -/
def padRight (pad : List Nat) (r d : Nat) : Nat := pad.getD (2 * (r - 1 - d) + 1) 0

/-- The positions of the padded tensor that come from the original tensor. -/
def padRegion (shape pad idx : List Nat) : Prop :=
  ∀ d ∈ List.range shape.length,
    padLeft pad shape.length d ≤ idx.getD d 0 ∧
    idx.getD d 0 - padLeft pad shape.length d < shape.getD d 0

instance (shape pad idx : List Nat) : Decidable (padRegion shape pad idx) :=
  List.decidableBAll _ _

/-- The original-tensor index corresponding to a position of the padded tensor. -/
def padShift (shape pad idx : List Nat) : List Nat :=
  (List.range shape.length).map fun d => idx.getD d 0 - padLeft pad shape.length d

/-- `Tensor::constant_pad_nd` with value 0 and nonnegative pads. -/
def Tensor.constantPadNd (t : Tensor) (pad : List Nat) : Tensor :=
  materialize
    ((List.range t.shape.length).map fun d =>
      padLeft pad t.shape.length d + t.shape.getD d 0 + padRight pad t.shape.length d)
    (fun idx => if padRegion t.shape pad idx then t.entry (padShift t.shape pad idx) else 0)

/-- `Tensor::unfold dim size step`: slide a window of length `size` with stride
`step` along dimension `dim`; the windows become the new last dimension.
Torch panics when the window does not fit, modelled by `none`. -/
def Tensor.unfold (t : Tensor) (dim size step : Nat) : Option Tensor :=
  if dim < t.shape.length ∧ 1 ≤ step ∧ size ≤ t.shape.getD dim 0 then
    let r := t.shape.length
    let cnt := (t.shape.getD dim 0 - size) / step + 1
    some (materialize (t.shape.set dim cnt ++ [size])
      (fun idx => t.entry ((List.range r).map fun d =>
        if d = dim then idx.getD dim 0 * step + idx.getD r 0 else idx.getD d 0)))
  else none

/-- Elementwise subtraction of a scalar (`input_tensor - value`). -/
def Tensor.subScalar (t : Tensor) (v : ℚ) : Tensor := ⟨t.shape, t.data.map (· - v)⟩

/-- Elementwise addition of a scalar (`tensor + value`). -/
def Tensor.addScalar (t : Tensor) (v : ℚ) : Tensor := ⟨t.shape, t.data.map (· + v)⟩

/-- Elementwise tensor addition (shapes assumed equal; no broadcasting). -/
def Tensor.add (a b : Tensor) : Tensor := materialize a.shape fun idx => a.entry idx + b.entry idx

/-- `Tensor::where1`: `cond ? self : other`, elementwise on equal shapes, with a
nonzero condition entry meaning true. -/
def Tensor.where1 (t cond other : Tensor) : Tensor :=
  materialize t.shape fun idx => if cond.entry idx ≠ 0 then t.entry idx else other.entry idx

/-- Batched `Tensor::matmul` over the two last dimensions (batch dimensions
assumed equal; no broadcasting). -/
def Tensor.matmul (a b : Tensor) : Tensor :=
  let ra := a.shape.length
  let m := a.shape.getD (ra - 2) 0
  let p := a.shape.getD (ra - 1) 0
  let n := b.shape.getD (b.shape.length - 1) 0
  materialize (a.shape.take (ra - 2) ++ [m, n])
    (fun idx => ((List.range p).map fun l =>
      a.entry (idx.take (ra - 2) ++ [idx.getD (ra - 2) 0, l]) *
      b.entry (idx.take (ra - 2) ++ [l, idx.getD (ra - 1) 0])).sum)

/-- `Tensor::softmax` along the last dimension.  The pointwise exponential of
the external numeric library is supplied as the parameter `sexp`. -/
def Tensor.softmaxLast (t : Tensor) (sexp : ℚ → ℚ) : Tensor :=
  let r := t.shape.length
  let n := t.shape.getD (r - 1) 0
  materialize t.shape fun idx =>
    sexp (t.entry idx) / (((List.range n).map fun l =>
      sexp (t.entry (idx.take (r - 1) ++ [l]))).sum)

/-- `apply_t` of the `Dropout` module: in evaluation mode (`train = false`) tch
dropout is the identity; its randomized train-mode action is supplied as the
function parameter. -/
def applyT (attention_dropout : Tensor → Tensor) (train : Bool) (t : Tensor) : Tensor :=
  if train then attention_dropout t else t

/-! ### The attention module functions (trait `GptNeoAttention`) -/

/-- Errors: `RustBertError::ValueError` raised by the module itself, and
`tchError` standing for a panic inside the tensor library (`view` / `reshape` /
`unfold` size mismatch, out-of-bounds `Vec` indexing). -/
inductive AttnError where
  | valueError (msg : String)
  | tchError
deriving DecidableEq, Repr

/-- The formatted message of the rank `ValueError`s. -/
def invalidRankMsg (expected : String) (got : Nat) : String :=
  "Invalid tensor rank, expected " ++ expected ++ ", got " ++ toString got

/-- Whether a result is a `ValueError` (as opposed to `Ok` or a library panic). -/
def isValueError : Except AttnError Tensor → Bool
  | .error (.valueError _) => true
  | _ => false

/-- The loop of `get_block_length_and_num_blocks`, with explicit fuel:
decrement `block_length` until it divides `sequence_length`. -/
def blockLengthLoop (sequence_length : Nat) : Nat → Nat → Option Nat
  | 0, _ => none
  | fuel + 1, block_length =>
    if sequence_length % block_length ≠ 0 then
      blockLengthLoop sequence_length fuel (block_length - 1)
    else some block_length

/-- `get_block_length_and_num_blocks` (lines 18–25).  `window_size` units of
fuel cover every iteration the loop can make before reaching 1; `none` models
nontermination/panic (possible only for `window_size = 0`). -/
def get_block_length_and_num_blocks (sequence_length window_size : Nat) : Option (Nat × Nat) :=
  match blockLengthLoop sequence_length window_size window_size with
  | some block_length => some (block_length, sequence_length / block_length)
  | none => none

/-- The `padded_tensor` computation of `look_back` (lines 45–54): pad directly
for no/zero pad value, and shift–pad–unshift for a nonzero one. -/
def lookBackPadded (input_tensor : Tensor) (padding_size : List Nat) (pad_value : Option Int) :
    Tensor :=
  match pad_value with
  | none => input_tensor.constantPadNd padding_size
  | some value =>
    if value = 0 then input_tensor.constantPadNd padding_size
    else ((input_tensor.subScalar (value : ℚ)).constantPadNd padding_size).addScalar (value : ℚ)

/-- `look_back` (lines 27–62). -/
def look_back (input_tensor : Tensor) (block_length window_size : Nat)
    (pad_value : Option Int) (is_key_value : Bool) : Except AttnError Tensor :=
  if input_tensor.shape.length = 3 ∨ input_tensor.shape.length = 2 then
    let padding_size : List Nat :=
      if input_tensor.shape.length = 3 then [0, 0, window_size, 0] else [window_size, 0]
    match (lookBackPadded input_tensor padding_size pad_value).unfold 1
        (window_size + block_length) block_length with
    | none => .error .tchError
    | some padded_tensor =>
      .ok (if is_key_value then padded_tensor.transpose (-2) (-1) else padded_tensor)
  else .error (.valueError (invalidRankMsg "2 or 3" input_tensor.shape.length))

/-- `split_heads` (lines 64–85).  The `view` happens before the rank check, as
in the source. -/
def split_heads (input_tensor : Tensor) (num_heads attention_head_size : Nat) :
    Except AttnError Tensor :=
  let new_shape := input_tensor.shape.dropLast ++ [num_heads, attention_head_size]
  match input_tensor.view new_shape with
  | none => .error .tchError
  | some reshaped_tensor =>
    if reshaped_tensor.shape.length = 5 then .ok (reshaped_tensor.permute [0, 1, 3, 2, 4])
    else if reshaped_tensor.shape.length = 4 then .ok (reshaped_tensor.permute [0, 2, 1, 3])
    else .error (.valueError (invalidRankMsg "4 or 5" input_tensor.shape.length))

/-- `merge_heads` (lines 87–106).  Note: as in the source, the merged shape is
computed from `input_tensor.size()` (truncated by two) and not from the
permuted `output_tensor`; `contiguous` is the identity in this model. -/
def merge_heads (input_tensor : Tensor) (num_heads attention_head_size : Nat) :
    Except AttnError Tensor :=
  if input_tensor.shape.length = 5 ∨ input_tensor.shape.length = 4 then
    let output_tensor :=
      if input_tensor.shape.length = 5 then input_tensor.permute [0, 1, 3, 2, 4]
      else input_tensor.permute [0, 2, 1, 3]
    let new_shape := input_tensor.shape.take (input_tensor.shape.length - 2) ++
      [num_heads * attention_head_size]
    match output_tensor.view new_shape with
    | none => .error .tchError
    | some merged => .ok merged
  else .error (.valueError (invalidRankMsg "4 or 5" input_tensor.shape.length))

/-- `split_sequence_length_dim_to` (lines 108–130).  `input_tensor.size()[0]`
panics on a rank-0 tensor before the rank match, hence the leading check. -/
def split_sequence_length_dim_to (input_tensor : Tensor)
    (dim_factor_1 dim_factor_2 hidden_size : Nat) : Except AttnError Tensor :=
  if input_tensor.shape.length = 0 then .error .tchError
  else
    let batch_size := input_tensor.shape.getD 0 0
    if input_tensor.shape.length = 3 then
      match input_tensor.reshape [batch_size, dim_factor_1, dim_factor_2, hidden_size] with
      | none => .error .tchError
      | some r => .ok r
    else if input_tensor.shape.length = 2 then
      match input_tensor.reshape [batch_size, dim_factor_1, dim_factor_2] with
      | none => .error .tchError
      | some r => .ok r
    else .error (.valueError (invalidRankMsg "2 or 3" input_tensor.shape.length))

/-- `attend` (lines 132–156). -/
def attend (sexp : ℚ → ℚ) (attention_dropout : Tensor → Tensor)
    (query key value causal_mask masked_bias : Tensor)
    (attention_mask : Option Tensor) (train : Bool) : Tensor × Tensor :=
  let attention_weights := (query.matmul (key.transpose (-1) (-2))).where1 causal_mask masked_bias
  let attention_weights :=
    match attention_mask with
    | some attention_mask_value => attention_weights.add attention_mask_value
    | none => attention_weights
  let attention_weights := applyT attention_dropout train (attention_weights.softmaxLast sexp)
  (attention_weights.matmul value, attention_weights)

/-- The pre-softmax masked attention scores of `attend` (lines 142–144). -/
def maskedScores (query key causal_mask masked_bias : Tensor) : Tensor :=
  (query.matmul (key.transpose (-1) (-2))).where1 causal_mask masked_bias

/-- The optional additive attention mask of `attend` (lines 146–148). -/
def withAttentionMask (scores : Tensor) (attention_mask : Option Tensor) : Tensor :=
  match attention_mask with
  | some attention_mask_value => scores.add attention_mask_value
  | none => scores

/-- The pad value as a rational: the given value, or 0 for `None`. -/
def padValueQ (pad_value : Option Int) : ℚ := ((pad_value.getD 0 : Int) : ℚ)

/-- Decidable equality of operation results. -/
instance : DecidableEq (Except AttnError Tensor) := fun a b =>
  match a, b with
  | .ok x, .ok y =>
    if h : x = y then isTrue (by rw [h])
    else isFalse (fun hc => by cases hc; exact h rfl)
  | .error x, .error y =>
    if h : x = y then isTrue (by rw [h])
    else isFalse (fun hc => by cases hc; exact h rfl)
  | .ok _, .error _ => isFalse (fun hc => by cases hc)
  | .error _, .ok _ => isFalse (fun hc => by cases hc)

/-! ### Concrete tensors used to evaluate the module at specific inputs -/

/-- A 1×4 all-ones query (one attention row, head size 4). -/
def qOnes : Tensor := ⟨[1, 4], [1, 1, 1, 1]⟩

/-- A 1×4 all-ones key. -/
def kOnes : Tensor := ⟨[1, 4], [1, 1, 1, 1]⟩

/-- A 1×1 causal mask that holds (nonzero) at its only position. -/
def cmTrue : Tensor := ⟨[1, 1], [1]⟩

/-- A 1×1 masked-bias tensor. -/
def mbBias : Tensor := ⟨[1, 1], [99]⟩

/-- A rank-3 tensor of shape [1, 2, 1]: batch 1, sequence length 2, hidden 1. -/
def tSeq2 : Tensor := ⟨[1, 2, 1], [5, 7]⟩

/-- A rank-2 tensor of shape [1, 1]. -/
def tOne : Tensor := ⟨[1, 1], [0]⟩

/-- A rank-2 tensor of shape [1, 0]: its dimension 1 is empty. -/
def tEmpty : Tensor := ⟨[1, 0], []⟩

/-- A rank-2 tensor of shape [1, 2]. -/
def tRow2 : Tensor := ⟨[1, 2], [3, 4]⟩

/-- Another rank-2 tensor of shape [1, 2]. -/
def tRow2b : Tensor := ⟨[1, 2], [5, 7]⟩

/-- A 1×1 query. -/
def qSmall : Tensor := ⟨[1, 1], [2]⟩

/-- A 1×1 key. -/
def kSmall : Tensor := ⟨[1, 1], [3]⟩

/-- A 1×1 value. -/
def vSmall : Tensor := ⟨[1, 1], [4]⟩

/-! ### General lemmas about the primitives -/
theorem IdxValid.length_eq {idx shape : List Nat} (h : IdxValid idx shape) :
    idx.length = shape.length := List.Forall₂.length_eq h

theorem prod_pos_of_valid {idx shape : List Nat} (h : IdxValid idx shape) : 0 < shape.prod := by
  induction h with
  | nil => simp
  | cons hab hl ih => simpa using Nat.mul_pos (Nat.lt_of_le_of_lt (Nat.zero_le _) hab) ih

theorem encode_lt_prod {idx shape : List Nat} (h : IdxValid idx shape) :
    encodeIdx shape idx < shape.prod := by
  induction h with
  | nil => simp [encodeIdx]
  | @cons i s is ss hab hl ih =>
    have hP : 0 < ss.prod := prod_pos_of_valid hl
    have : i * ss.prod + encodeIdx ss is < (i + 1) * ss.prod := by
      rw [Nat.succ_mul]
      exact Nat.add_lt_add_left ih _
    calc encodeIdx (s :: ss) (i :: is) = i * ss.prod + encodeIdx ss is := by
          simp [encodeIdx]
      _ < (i + 1) * ss.prod := this
      _ ≤ s * ss.prod := Nat.mul_le_mul_right _ hab
      _ = (s :: ss).prod := by simp

theorem decode_encode {idx shape : List Nat} (h : IdxValid idx shape) :
    decodeIdx shape (encodeIdx shape idx) = idx := by
  induction h with
  | nil => simp [decodeIdx, encodeIdx]
  | @cons i s is ss hab hl ih =>
    have hP : 0 < ss.prod := prod_pos_of_valid hl
    have he : encodeIdx ss is < ss.prod := encode_lt_prod hl
    simp only [decodeIdx, encodeIdx, List.headD_cons, List.tail_cons, List.cons.injEq]
    refine ⟨?_, ?_⟩
    · rw [Nat.add_comm, Nat.add_mul_div_right _ _ hP, Nat.div_eq_of_lt he, Nat.zero_add]
    · rw [Nat.add_comm, Nat.add_mul_mod_self_right, Nat.mod_eq_of_lt he]
      exact ih

theorem getD_map_range (g : Nat → ℚ) {n i : Nat} (h : i < n) :
    ((List.range n).map g).getD i 0 = g i := by
  have hlen : i < ((List.range n).map g).length := by simpa using h
  rw [List.getD_eq_getElem _ _ hlen]
  simp

theorem materialize_shape (s : List Nat) (f : List Nat → ℚ) : (materialize s f).shape = s := rfl

theorem materialize_wf (s : List Nat) (f : List Nat → ℚ) : (materialize s f).wf := by
  simp [Tensor.wf, materialize]

theorem materialize_entry {s idx : List Nat} (f : List Nat → ℚ) (h : IdxValid idx s) :
    (materialize s f).entry idx = f idx := by
  unfold materialize Tensor.entry
  simp only
  rw [getD_map_range _ (encode_lt_prod h), decode_encode h]


theorem getD_append2_fst (l : List Nat) (a b : Nat) : (l ++ [a, b]).getD l.length 0 = a := by
  induction l with
  | nil => rfl
  | cons x xs ih => simpa using ih

theorem getD_append2_snd (l : List Nat) (a b : Nat) : (l ++ [a, b]).getD (l.length + 1) 0 = b := by
  induction l with
  | nil => rfl
  | cons x xs ih => simpa using ih

theorem set_append2_fst (l : List Nat) (a b x : Nat) :
    (l ++ [a, b]).set l.length x = l ++ [x, b] := by
  induction l with
  | nil => rfl
  | cons y ys ih => simp [ih]

theorem set_append2_snd (l : List Nat) (a b x : Nat) :
    (l ++ [a, b]).set (l.length + 1) x = l ++ [a, x] := by
  induction l with
  | nil => rfl
  | cons y ys ih => simp [ih]

theorem take_append2 (l : List Nat) (a b : Nat) : (l ++ [a, b]).take l.length = l := by
  induction l with
  | nil => rfl
  | cons y ys ih => simp [ih]

theorem length_append2 (l : List Nat) (a b : Nat) : (l ++ [a, b]).length = l.length + 2 := by
  simp

theorem idxValid_append2 {rest base : List Nat} {i j x y : Nat}
    (h : IdxValid rest base) (hi : i < x) (hj : j < y) :
    IdxValid (rest ++ [i, j]) (base ++ [x, y]) :=
  List.rel_append h (List.Forall₂.cons hi (List.Forall₂.cons hj List.Forall₂.nil))

theorem entry_addScalar {t : Tensor} (v : ℚ) {idx : List Nat}
    (hwf : t.wf) (h : IdxValid idx t.shape) :
    (t.addScalar v).entry idx = t.entry idx + v := by
  have he : encodeIdx t.shape idx < t.data.length := hwf ▸ encode_lt_prod h
  have hm : encodeIdx t.shape idx < (t.data.map (· + v)).length := by simpa using he
  unfold Tensor.addScalar Tensor.entry
  simp only
  rw [List.getD_eq_getElem _ _ hm, List.getD_eq_getElem _ _ he]
  simp

theorem entry_subScalar {t : Tensor} (v : ℚ) {idx : List Nat}
    (hwf : t.wf) (h : IdxValid idx t.shape) :
    (t.subScalar v).entry idx = t.entry idx - v := by
  have he : encodeIdx t.shape idx < t.data.length := hwf ▸ encode_lt_prod h
  have hm : encodeIdx t.shape idx < (t.data.map (· - v)).length := by simpa using he
  unfold Tensor.subScalar Tensor.entry
  simp only
  rw [List.getD_eq_getElem _ _ hm, List.getD_eq_getElem _ _ he]
  simp

theorem padShift_length (shape pad idx : List Nat) :
    (padShift shape pad idx).length = shape.length := by
  simp [padShift]

theorem padShift_valid {shape pad idx : List Nat} (h : padRegion shape pad idx) :
    IdxValid (padShift shape pad idx) shape := by
  rw [IdxValid, List.forall₂_iff_get]
  refine ⟨padShift_length shape pad idx, ?_⟩
  intro i h₁ h₂
  have hi : i < shape.length := h₂
  have hget : (padShift shape pad idx).get ⟨i, h₁⟩ = idx.getD i 0 - padLeft pad shape.length i := by
    simp [padShift]
  have hs : shape.get ⟨i, h₂⟩ = shape.getD i 0 := by
    rw [List.getD_eq_getElem _ _ h₂]
    simp
  rw [hget, hs]
  exact (h i (List.mem_range.mpr hi)).2

theorem constantPadNd_shape (t : Tensor) (pad : List Nat) :
    (t.constantPadNd pad).shape =
      (List.range t.shape.length).map fun d =>
        padLeft pad t.shape.length d + t.shape.getD d 0 + padRight pad t.shape.length d := rfl

theorem constantPadNd_entry (t : Tensor) (pad : List Nat) {idx : List Nat}
    (h : IdxValid idx (t.constantPadNd pad).shape) :
    (t.constantPadNd pad).entry idx =
      if padRegion t.shape pad idx then t.entry (padShift t.shape pad idx) else 0 :=
  materialize_entry _ h

theorem lookBackPadded_shape (t : Tensor) (ps : List Nat) (pv : Option Int) :
    (lookBackPadded t ps pv).shape = (t.constantPadNd ps).shape := by
  cases pv with
  | none => rfl
  | some v =>
    by_cases h : v = 0
    · simp only [lookBackPadded, h, reduceIte]
    · simp only [lookBackPadded, h, reduceIte]
      rfl

theorem lookBackPadded_entry (t : Tensor) (ps : List Nat) (pv : Option Int) {idx : List Nat}
    (hwf : t.wf) (hidx : IdxValid idx (t.constantPadNd ps).shape) :
    (lookBackPadded t ps pv).entry idx =
      if padRegion t.shape ps idx then t.entry (padShift t.shape ps idx) else padValueQ pv := by
  cases pv with
  | none =>
    rw [lookBackPadded, constantPadNd_entry t ps hidx]
    simp [padValueQ]
  | some v =>
    by_cases h0 : v = 0
    · subst h0
      rw [lookBackPadded, if_pos rfl, constantPadNd_entry t ps hidx]
      simp [padValueQ]
    · rw [lookBackPadded, if_neg h0]
      have hsub_wf : ((t.subScalar (v : ℚ)).constantPadNd ps).wf := materialize_wf _ _
      have hidx' : IdxValid idx ((t.subScalar (v : ℚ)).constantPadNd ps).shape := hidx
      rw [entry_addScalar (v : ℚ) hsub_wf hidx',
        constantPadNd_entry (t.subScalar (v : ℚ)) ps hidx']
      by_cases hr : padRegion t.shape ps idx
      · have hr' : padRegion (t.subScalar (v : ℚ)).shape ps idx := hr
        rw [if_pos hr', if_pos hr]
        have hsh : (t.subScalar (v : ℚ)).shape = t.shape := rfl
        rw [hsh, entry_subScalar (v : ℚ) hwf (padShift_valid hr)]
        exact sub_add_cancel _ _
      · have hr' : ¬ padRegion (t.subScalar (v : ℚ)).shape ps idx := hr
        rw [if_neg hr', if_neg hr]
        simp [padValueQ]

theorem where1_shape (t c o : Tensor) : (t.where1 c o).shape = t.shape := rfl

theorem where1_entry (t c o : Tensor) {idx : List Nat} (h : IdxValid idx t.shape) :
    (t.where1 c o).entry idx =
      if c.entry idx ≠ 0 then t.entry idx else o.entry idx :=
  materialize_entry _ h


theorem swap2_append_m1 (l : List Nat) (a b : Nat) {k : Nat} (hk : k = l.length) :
    ((l ++ [a, b]).set (k + 1) ((l ++ [a, b]).getD k 0)).set k ((l ++ [a, b]).getD (k + 1) 0) =
      l ++ [b, a] := by
  subst hk
  rw [getD_append2_fst, getD_append2_snd, set_append2_snd, set_append2_fst]

theorem swap2_append_m2 (l : List Nat) (a b : Nat) {k : Nat} (hk : k = l.length) :
    ((l ++ [a, b]).set k ((l ++ [a, b]).getD (k + 1) 0)).set (k + 1) ((l ++ [a, b]).getD k 0) =
      l ++ [b, a] := by
  subst hk
  rw [getD_append2_fst, getD_append2_snd, set_append2_fst, set_append2_snd]

theorem transpose_m1_m2_shape {t : Tensor} {base : List Nat} {x y : Nat}
    (hs : t.shape = base ++ [x, y]) :
    (t.transpose (-1) (-2)).shape = base ++ [y, x] := by
  unfold Tensor.transpose
  rw [materialize_shape, hs]
  have ha : (if (-1 : Int) < 0 then -1 + (((base ++ [x, y]).length : Nat) : Int) else -1).toNat
      = base.length + 1 := by
    simp only [length_append2]
    omega
  have hb : (if (-2 : Int) < 0 then -2 + (((base ++ [x, y]).length : Nat) : Int) else -2).toNat
      = base.length := by
    simp only [length_append2]
    omega
  rw [ha, hb, swap2_append_m1 base x y rfl]

theorem transpose_m2_m1_shape {t : Tensor} {base : List Nat} {x y : Nat}
    (hs : t.shape = base ++ [x, y]) :
    (t.transpose (-2) (-1)).shape = base ++ [y, x] := by
  unfold Tensor.transpose
  rw [materialize_shape, hs]
  have ha : (if (-2 : Int) < 0 then -2 + (((base ++ [x, y]).length : Nat) : Int) else -2).toNat
      = base.length := by
    simp only [length_append2]
    omega
  have hb : (if (-1 : Int) < 0 then -1 + (((base ++ [x, y]).length : Nat) : Int) else -1).toNat
      = base.length + 1 := by
    simp only [length_append2]
    omega
  rw [ha, hb, swap2_append_m2 base x y rfl]

theorem transpose_m1_m2_entry {t : Tensor} {base : List Nat} {x y : Nat}
    (hs : t.shape = base ++ [x, y]) {rest : List Nat} {i j : Nat}
    (hrest : IdxValid rest base) (hi : i < y) (hj : j < x) :
    (t.transpose (-1) (-2)).entry (rest ++ [i, j]) = t.entry (rest ++ [j, i]) := by
  have hrl : rest.length = base.length := hrest.length_eq
  have hvalid : IdxValid (rest ++ [i, j]) (base ++ [y, x]) := idxValid_append2 hrest hi hj
  unfold Tensor.transpose
  rw [hs]
  have ha : (if (-1 : Int) < 0 then -1 + (((base ++ [x, y]).length : Nat) : Int) else -1).toNat
      = base.length + 1 := by
    simp only [length_append2]
    omega
  have hb : (if (-2 : Int) < 0 then -2 + (((base ++ [x, y]).length : Nat) : Int) else -2).toNat
      = base.length := by
    simp only [length_append2]
    omega
  simp only [ha, hb]
  rw [swap2_append_m1 base x y rfl]
  rw [materialize_entry _ hvalid, swap2_append_m1 rest i j hrl.symm]

theorem transpose_m2_m1_entry {t : Tensor} {base : List Nat} {x y : Nat}
    (hs : t.shape = base ++ [x, y]) {rest : List Nat} {i j : Nat}
    (hrest : IdxValid rest base) (hi : i < y) (hj : j < x) :
    (t.transpose (-2) (-1)).entry (rest ++ [i, j]) = t.entry (rest ++ [j, i]) := by
  have hrl : rest.length = base.length := hrest.length_eq
  have hvalid : IdxValid (rest ++ [i, j]) (base ++ [y, x]) := idxValid_append2 hrest hi hj
  unfold Tensor.transpose
  rw [hs]
  have ha : (if (-2 : Int) < 0 then -2 + (((base ++ [x, y]).length : Nat) : Int) else -2).toNat
      = base.length := by
    simp only [length_append2]
    omega
  have hb : (if (-1 : Int) < 0 then -1 + (((base ++ [x, y]).length : Nat) : Int) else -1).toNat
      = base.length + 1 := by
    simp only [length_append2]
    omega
  simp only [ha, hb]
  rw [swap2_append_m2 base x y rfl]
  rw [materialize_entry _ hvalid, swap2_append_m2 rest i j hrl.symm]

theorem matmul_shape {a b : Tensor} {base : List Nat} {m p n : Nat}
    (ha : a.shape = base ++ [m, p]) (hb : b.shape = base ++ [p, n]) :
    (a.matmul b).shape = base ++ [m, n] := by
  unfold Tensor.matmul
  rw [materialize_shape, ha, hb]
  simp only [length_append2]
  rw [show base.length + 2 - 2 = base.length from by omega,
    show base.length + 2 - 1 = base.length + 1 from by omega,
    take_append2, getD_append2_fst, getD_append2_snd]

theorem matmul_entry {a b : Tensor} {base : List Nat} {m p n : Nat}
    (ha : a.shape = base ++ [m, p]) (hb : b.shape = base ++ [p, n])
    {rest : List Nat} {i j : Nat}
    (hrest : IdxValid rest base) (hi : i < m) (hj : j < n) :
    (a.matmul b).entry (rest ++ [i, j]) =
      ((List.range p).map fun l => a.entry (rest ++ [i, l]) * b.entry (rest ++ [l, j])).sum := by
  have hrl : rest.length = base.length := hrest.length_eq
  have hvalid : IdxValid (rest ++ [i, j]) (base ++ [m, n]) := idxValid_append2 hrest hi hj
  unfold Tensor.matmul
  simp only [ha, hb, length_append2,
    show base.length + 2 - 2 = base.length from by omega,
    show base.length + 2 - 1 = base.length + 1 from by omega,
    take_append2, getD_append2_fst, getD_append2_snd]
  rw [materialize_entry _ hvalid]
  rw [← hrl, take_append2, getD_append2_fst, getD_append2_snd]

theorem add_entry (a b : Tensor) {idx : List Nat} (h : IdxValid idx a.shape) :
    (a.add b).entry idx = a.entry idx + b.entry idx :=
  materialize_entry _ h

theorem add_shape (a b : Tensor) : (a.add b).shape = a.shape := rfl

/-! ### The block-length loop -/

theorem blockLengthLoop_succ (seq f bl : Nat) :
    blockLengthLoop seq (f + 1) bl =
      if seq % bl ≠ 0 then blockLengthLoop seq f (bl - 1) else some bl := rfl

theorem blockLengthLoop_spec (seq : Nat) :
    ∀ fuel bl, 1 ≤ bl → bl ≤ fuel →
      ∃ r, blockLengthLoop seq fuel bl = some r ∧ 1 ≤ r ∧ r ≤ bl ∧ seq % r = 0 ∧
        ∀ k, r < k → k ≤ bl → seq % k ≠ 0 := by
  intro fuel
  induction fuel with
  | zero => intro bl h1 h2; omega
  | succ f ih =>
    intro bl h1 h2
    by_cases hmod : seq % bl = 0
    · refine ⟨bl, ?_, h1, Nat.le_refl bl, hmod, ?_⟩
      · rw [blockLengthLoop_succ, if_neg (by omega)]
      · intro k hk1 hk2; omega
    · have hbl1 : bl ≠ 1 := by
        intro h
        rw [h] at hmod
        exact hmod (Nat.mod_one seq)
      have hble : 1 ≤ bl - 1 := by omega
      have hblf : bl - 1 ≤ f := by omega
      obtain ⟨r, hr, hr1, hr2, hr3, hr4⟩ := ih (bl - 1) hble hblf
      refine ⟨r, ?_, hr1, by omega, hr3, ?_⟩
      · rw [blockLengthLoop_succ, if_pos hmod]
        exact hr
      · intro k hk1 hk2
        by_cases hkb : k = bl
        · rw [hkb]; exact hmod
        · exact hr4 k hk1 (by omega)

/-! ### Rank/size classification of the fallible operations -/

theorem look_back_classify (t : Tensor) (bl ws : Nat) (pv : Option Int) (ikv : Bool) :
    (isValueError (look_back t bl ws pv ikv) = true ↔
      ¬(t.shape.length = 3 ∨ t.shape.length = 2)) ∧
    ((t.shape.length = 3 ∨ t.shape.length = 2) →
      ((∃ r, look_back t bl ws pv ikv = .ok r) ↔
        (1 ≤ bl ∧ bl ≤ t.shape.getD 1 0))) := by
  by_cases hr : t.shape.length = 3 ∨ t.shape.length = 2
  · have hlen : (lookBackPadded t
        (if t.shape.length = 3 then [0, 0, ws, 0] else [ws, 0]) pv).shape.length
        = t.shape.length := by
      rw [lookBackPadded_shape, constantPadNd_shape]
      simp
    have hdim1 : (lookBackPadded t
        (if t.shape.length = 3 then [0, 0, ws, 0] else [ws, 0]) pv).shape.getD 1 0
        = ws + t.shape.getD 1 0 := by
      rw [lookBackPadded_shape, constantPadNd_shape]
      rcases hr with h3 | h2
      · obtain ⟨a, b, c, habc⟩ := List.length_eq_three.mp h3
        rw [h3]
        simp only [List.range_succ, List.range_zero]
        simp [habc, padLeft, padRight, List.getD]
      · obtain ⟨a, b, hab⟩ := List.length_eq_two.mp h2
        rw [h2]
        simp only [List.range_succ, List.range_zero]
        simp [hab, padLeft, padRight, List.getD]
    constructor
    · simp only [look_back, if_pos hr]
      constructor
      · intro hve
        exfalso
        rcases hu : (lookBackPadded t
            (if t.shape.length = 3 then [0, 0, ws, 0] else [ws, 0]) pv).unfold 1 (ws + bl) bl with
          _ | u
        · rw [hu] at hve; simp [isValueError] at hve
        · rw [hu] at hve; simp [isValueError] at hve
      · intro h; exact absurd hr h
    · intro _
      simp only [look_back, if_pos hr]
      constructor
      · rintro ⟨r, hok⟩
        rcases hu : (lookBackPadded t
            (if t.shape.length = 3 then [0, 0, ws, 0] else [ws, 0]) pv).unfold 1 (ws + bl) bl with
          _ | u
        · rw [hu] at hok; simp at hok
        · unfold Tensor.unfold at hu
          rw [hlen, hdim1] at hu
          by_cases hc : 1 < t.shape.length ∧ 1 ≤ bl ∧ ws + bl ≤ ws + t.shape.getD 1 0
          · exact ⟨hc.2.1, by omega⟩
          · rw [if_neg hc] at hu; exact absurd hu (by simp)
      · rintro ⟨hbl1, hbls⟩
        have hcond : 1 < (lookBackPadded t
            (if t.shape.length = 3 then [0, 0, ws, 0] else [ws, 0]) pv).shape.length ∧
            1 ≤ bl ∧ ws + bl ≤ (lookBackPadded t
            (if t.shape.length = 3 then [0, 0, ws, 0] else [ws, 0]) pv).shape.getD 1 0 := by
          rw [hlen, hdim1]
          omega
        rcases hu : (lookBackPadded t
            (if t.shape.length = 3 then [0, 0, ws, 0] else [ws, 0]) pv).unfold 1 (ws + bl) bl with
          _ | u
        · unfold Tensor.unfold at hu
          rw [if_pos hcond] at hu
          exact absurd hu (by simp)
        · exact ⟨if ikv then u.transpose (-2) (-1) else u, rfl⟩
  · constructor
    · simp [look_back, if_neg hr, isValueError, hr]
    · intro h; exact absurd h hr

theorem length_eq_four {l : List Nat} : l.length = 4 ↔ ∃ a b c e, l = [a, b, c, e] := by
  constructor
  · intro h
    rcases l with _ | ⟨a, _ | ⟨b, _ | ⟨c, _ | ⟨e, rest⟩⟩⟩⟩ <;> simp_all
  · rintro ⟨a, b, c, e, rfl⟩
    rfl

theorem length_eq_five {l : List Nat} : l.length = 5 ↔ ∃ a b c e f, l = [a, b, c, e, f] := by
  constructor
  · intro h
    rcases l with _ | ⟨a, _ | ⟨b, _ | ⟨c, _ | ⟨e, _ | ⟨f, rest⟩⟩⟩⟩⟩ <;> simp_all
  · rintro ⟨a, b, c, e, f, rfl⟩
    rfl


theorem split_heads_classify (t : Tensor) (n d : Nat) :
    (split_heads t n d = .error .tchError ↔
      (t.shape.dropLast ++ [n, d]).prod ≠ t.shape.prod) ∧
    (isValueError (split_heads t n d) = true ↔
      ((t.shape.dropLast ++ [n, d]).prod = t.shape.prod ∧
        ¬(t.shape.length = 3 ∨ t.shape.length = 4))) ∧
    ((∃ r, split_heads t n d = .ok r) ↔
      ((t.shape.dropLast ++ [n, d]).prod = t.shape.prod ∧
        (t.shape.length = 3 ∨ t.shape.length = 4))) := by
  by_cases hc : (t.shape.dropLast ++ [n, d]).prod = t.shape.prod
  · by_cases h4 : t.shape.length = 4
    · have hval : split_heads t n d =
          .ok ((⟨t.shape.dropLast ++ [n, d], t.data⟩ : Tensor).permute [0, 1, 3, 2, 4]) := by
        simp [split_heads, Tensor.view, hc, h4]
      refine ⟨?_, ?_, ?_⟩
      · rw [hval]; simp [hc]
      · rw [hval]; simp [isValueError, h4]
      · rw [hval]; simp [hc, h4]
    · by_cases h3 : t.shape.length = 3
      · have hval : split_heads t n d =
            .ok ((⟨t.shape.dropLast ++ [n, d], t.data⟩ : Tensor).permute [0, 2, 1, 3]) := by
          simp [split_heads, Tensor.view, hc, h3]
        refine ⟨?_, ?_, ?_⟩
        · rw [hval]; simp [hc]
        · rw [hval]; simp [isValueError, h3]
        · rw [hval]; simp [hc, h3]
      · have hval : split_heads t n d =
            .error (.valueError (invalidRankMsg "4 or 5" t.shape.length)) := by
          simp only [split_heads, Tensor.view]
          rw [if_pos hc]
          simp only []
          rw [show ((⟨t.shape.dropLast ++ [n, d], t.data⟩ : Tensor)).shape.length
              = t.shape.length - 1 + 2 from by simp]
          rw [if_neg (by omega), if_neg (by omega)]
        refine ⟨?_, ?_, ?_⟩
        · rw [hval]; simp [hc]
        · rw [hval]; simp [isValueError, hc, h3, h4]
        · rw [hval]; simp [h3, h4]
  · have hc' : ¬ t.shape.dropLast.prod * (n * d) = t.shape.prod := by simpa using hc
    have hval : split_heads t n d = .error .tchError := by
      simp [split_heads, Tensor.view, hc']
    refine ⟨?_, ?_, ?_⟩
    · rw [hval]
      simp only [true_iff, eq_self_iff_true]
      exact hc
    · rw [hval]; simp [isValueError, hc']
    · rw [hval]; simp [hc']

theorem merge_heads_classify (t : Tensor) (n d : Nat) :
    (isValueError (merge_heads t n d) = true ↔
      ¬(t.shape.length = 5 ∨ t.shape.length = 4)) ∧
    ((t.shape.length = 5 ∨ t.shape.length = 4) →
      ((∃ r, merge_heads t n d = .ok r) ↔
        (t.shape.take (t.shape.length - 2) ++ [n * d]).prod = t.shape.prod)) ∧
    ((t.shape.length = 5 ∨ t.shape.length = 4) →
      (t.shape.take (t.shape.length - 2) ++ [n * d]).prod ≠ t.shape.prod →
      merge_heads t n d = .error .tchError) := by
  by_cases hr : t.shape.length = 5 ∨ t.shape.length = 4
  · have hperm : (if t.shape.length = 5 then t.permute [0, 1, 3, 2, 4]
        else t.permute [0, 2, 1, 3]).shape.prod = t.shape.prod := by
      rcases hr with h5 | h4
      · obtain ⟨a, b, c, e, f, habc⟩ := length_eq_five.mp h5
        rw [if_pos h5]
        unfold Tensor.permute
        rw [materialize_shape, habc]
        have hmap : (List.map (fun k => ([a, b, c, e, f] : List Nat).getD k 0) [0, 1, 3, 2, 4])
            = [a, b, e, c, f] := rfl
        rw [hmap]
        simp only [List.prod_cons, List.prod_nil]
        ring
      · have hne : ¬ t.shape.length = 5 := by omega
        obtain ⟨a, b, c, e, habc⟩ := length_eq_four.mp h4
        rw [if_neg hne]
        unfold Tensor.permute
        rw [materialize_shape, habc]
        have hmap : (List.map (fun k => ([a, b, c, e] : List Nat).getD k 0) [0, 2, 1, 3])
            = [a, c, b, e] := rfl
        rw [hmap]
        simp only [List.prod_cons, List.prod_nil]
        ring
    by_cases hcv : (t.shape.take (t.shape.length - 2) ++ [n * d]).prod = t.shape.prod
    · have hval : merge_heads t n d =
          .ok ⟨t.shape.take (t.shape.length - 2) ++ [n * d],
            (if t.shape.length = 5 then t.permute [0, 1, 3, 2, 4]
              else t.permute [0, 2, 1, 3]).data⟩ := by
        simp [merge_heads, Tensor.view, hr, hperm, hcv]
      refine ⟨?_, ?_, ?_⟩
      · rw [hval]; simp [isValueError, hr]
      · intro _; rw [hval]; simp [hcv]
      · intro _ hne; exact absurd hcv hne
    · have hcv' : ¬ (t.shape.take (t.shape.length - 2)).prod * (n * d) = t.shape.prod := by
        simpa using hcv
      have hval : merge_heads t n d = .error .tchError := by
        simp [merge_heads, Tensor.view, hr, hperm, hcv']
      refine ⟨?_, ?_, ?_⟩
      · rw [hval]; simp [isValueError, hr]
      · intro _
        rw [hval]
        constructor
        · rintro ⟨r, hr2⟩
          exact absurd hr2 (by simp)
        · intro h
          exact absurd h hcv
      · intro _ _; exact hval
  · have hval : merge_heads t n d =
        .error (.valueError (invalidRankMsg "4 or 5" t.shape.length)) := by
      simp [merge_heads, hr]
    refine ⟨?_, ?_, ?_⟩
    · rw [hval]; simp [isValueError, hr]
    · intro h; exact absurd h hr
    · intro h; exact absurd h hr

theorem split_seq_classify (t : Tensor) (f1 f2 hid : Nat) :
    (t.shape.length = 0 → split_sequence_length_dim_to t f1 f2 hid = .error .tchError) ∧
    (isValueError (split_sequence_length_dim_to t f1 f2 hid) = true ↔
      (t.shape.length ≠ 0 ∧ t.shape.length ≠ 2 ∧ t.shape.length ≠ 3)) ∧
    (t.shape.length = 3 →
      ((∃ r, split_sequence_length_dim_to t f1 f2 hid = .ok r) ↔
        ([t.shape.getD 0 0, f1, f2, hid] : List Nat).prod = t.shape.prod)) ∧
    (t.shape.length = 2 →
      ((∃ r, split_sequence_length_dim_to t f1 f2 hid = .ok r) ↔
        ([t.shape.getD 0 0, f1, f2] : List Nat).prod = t.shape.prod)) := by
  by_cases h0 : t.shape.length = 0
  · have hval : split_sequence_length_dim_to t f1 f2 hid = .error .tchError := by
      simp [split_sequence_length_dim_to, h0]
    refine ⟨fun _ => hval, ?_, fun h => by omega, fun h => by omega⟩
    rw [hval]; simp [isValueError, h0]
  · by_cases h3 : t.shape.length = 3
    · by_cases hcv : ([t.shape.getD 0 0, f1, f2, hid] : List Nat).prod = t.shape.prod
      · have hval : split_sequence_length_dim_to t f1 f2 hid =
            .ok ⟨[t.shape.getD 0 0, f1, f2, hid], t.data⟩ := by
          simp only [split_sequence_length_dim_to, Tensor.reshape, Tensor.view, if_neg h0,
            if_pos h3, if_pos hcv]
        refine ⟨fun h => absurd h h0, ?_, fun _ => ?_, fun h => by omega⟩
        · rw [hval]; simp [isValueError, h0, h3]
        · rw [hval]
          exact ⟨fun _ => hcv, fun _ => ⟨_, rfl⟩⟩
      · have hval : split_sequence_length_dim_to t f1 f2 hid = .error .tchError := by
          simp only [split_sequence_length_dim_to, Tensor.reshape, Tensor.view, if_neg h0,
            if_pos h3, if_neg hcv]
        refine ⟨fun h => absurd h h0, ?_, fun _ => ?_, fun h => by omega⟩
        · rw [hval]; simp [isValueError, h0, h3]
        · rw [hval]
          exact ⟨fun ⟨r, hr⟩ => absurd hr (by simp), fun h => absurd h hcv⟩
    · by_cases h2 : t.shape.length = 2
      · by_cases hcv : ([t.shape.getD 0 0, f1, f2] : List Nat).prod = t.shape.prod
        · have hval : split_sequence_length_dim_to t f1 f2 hid =
              .ok ⟨[t.shape.getD 0 0, f1, f2], t.data⟩ := by
            simp only [split_sequence_length_dim_to, Tensor.reshape, Tensor.view, if_neg h0,
              if_neg h3, if_pos h2, if_pos hcv]
          refine ⟨fun h => absurd h h0, ?_, fun h => by omega, fun _ => ?_⟩
          · rw [hval]; simp [isValueError, h0, h2, h3]
          · rw [hval]
            exact ⟨fun _ => hcv, fun _ => ⟨_, rfl⟩⟩
        · have hval : split_sequence_length_dim_to t f1 f2 hid = .error .tchError := by
            simp only [split_sequence_length_dim_to, Tensor.reshape, Tensor.view, if_neg h0,
              if_neg h3, if_pos h2, if_neg hcv]
          refine ⟨fun h => absurd h h0, ?_, fun h => by omega, fun _ => ?_⟩
          · rw [hval]; simp [isValueError, h0, h2, h3]
          · rw [hval]
            exact ⟨fun ⟨r, hr⟩ => absurd hr (by simp), fun h => absurd h hcv⟩
      · have hval : split_sequence_length_dim_to t f1 f2 hid =
            .error (.valueError (invalidRankMsg "2 or 3" t.shape.length)) := by
          simp only [split_sequence_length_dim_to, if_neg h0, if_neg h3, if_neg h2]
        refine ⟨fun h => absurd h h0, ?_, fun h => by omega, fun h => by omega⟩
        rw [hval]; simp [isValueError, h0, h2, h3]

theorem unfold_spec (t : Tensor) (dim size step : Nat)
    (h : dim < t.shape.length ∧ 1 ≤ step ∧ size ≤ t.shape.getD dim 0) :
    ∃ u, t.unfold dim size step = some u ∧
      u.shape = t.shape.set dim ((t.shape.getD dim 0 - size) / step + 1) ++ [size] ∧
      ∀ idx, IdxValid idx u.shape →
        u.entry idx = t.entry ((List.range t.shape.length).map fun d =>
          if d = dim then idx.getD dim 0 * step + idx.getD t.shape.length 0
          else idx.getD d 0) := by
  have hsome : t.unfold dim size step =
      some (materialize (t.shape.set dim ((t.shape.getD dim 0 - size) / step + 1) ++ [size])
        (fun idx => t.entry ((List.range t.shape.length).map fun d =>
          if d = dim then idx.getD dim 0 * step + idx.getD t.shape.length 0
          else idx.getD d 0))) := by
    unfold Tensor.unfold
    rw [if_pos h]
  exact ⟨_, hsome, rfl, fun idx hv => materialize_entry _ hv⟩

theorem pad2_shape (t : Tensor) (ws b s : Nat) (hs : t.shape = [b, s]) :
    (t.constantPadNd [ws, 0]).shape = [b, ws + s] := by
  rw [constantPadNd_shape, hs]
  have h0 : padLeft [ws, 0] 2 0 = 0 := rfl
  have h1 : padLeft [ws, 0] 2 1 = ws := rfl
  have h2 : padRight [ws, 0] 2 0 = 0 := rfl
  have h3 : padRight [ws, 0] 2 1 = 0 := rfl
  have hr : List.range ([b, s] : List Nat).length = [0, 1] := rfl
  rw [hr]
  simp [h0, h1, h2, h3, List.getD]

theorem pad3_shape (t : Tensor) (ws b s hdim : Nat) (hs : t.shape = [b, s, hdim]) :
    (t.constantPadNd [0, 0, ws, 0]).shape = [b, ws + s, hdim] := by
  rw [constantPadNd_shape, hs]
  have h0 : padLeft [0, 0, ws, 0] 3 0 = 0 := rfl
  have h1 : padLeft [0, 0, ws, 0] 3 1 = ws := rfl
  have h2 : padLeft [0, 0, ws, 0] 3 2 = 0 := rfl
  have h3 : padRight [0, 0, ws, 0] 3 0 = 0 := rfl
  have h4 : padRight [0, 0, ws, 0] 3 1 = 0 := rfl
  have h5 : padRight [0, 0, ws, 0] 3 2 = 0 := rfl
  have hr : List.range ([b, s, hdim] : List Nat).length = [0, 1, 2] := rfl
  rw [hr]
  simp [h0, h1, h2, h3, h4, h5, List.getD]

theorem padRegion2_iff (ws b s bi x : Nat) (hbi : bi < b) (hx : x < ws + s) :
    padRegion [b, s] [ws, 0] [bi, x] ↔ ws ≤ x := by
  unfold padRegion
  have hr : List.range ([b, s] : List Nat).length = [0, 1] := rfl
  rw [hr]
  simp only [List.forall_mem_cons, List.forall_mem_nil, and_true]
  constructor
  · intro h
    exact h.2.1.1
  · intro h
    exact ⟨⟨Nat.zero_le bi, hbi⟩, ⟨h, show x - ws < s by omega⟩,
      fun y hy => absurd hy (List.not_mem_nil y)⟩

theorem padShift2 (ws b s bi x : Nat) : padShift [b, s] [ws, 0] [bi, x] = [bi, x - ws] := rfl

theorem padRegion3_iff (ws b s hdim bi x f : Nat) (hbi : bi < b) (hx : x < ws + s)
    (hf : f < hdim) :
    padRegion [b, s, hdim] [0, 0, ws, 0] [bi, x, f] ↔ ws ≤ x := by
  unfold padRegion
  have hr : List.range ([b, s, hdim] : List Nat).length = [0, 1, 2] := rfl
  rw [hr]
  simp only [List.forall_mem_cons, List.forall_mem_nil, and_true]
  constructor
  · intro h
    exact h.2.1.1
  · intro h
    exact ⟨⟨Nat.zero_le bi, hbi⟩, ⟨h, show x - ws < s by omega⟩, ⟨Nat.zero_le f, hf⟩,
      fun y hy => absurd hy (List.not_mem_nil y)⟩

theorem padShift3 (ws b s hdim bi x f : Nat) :
    padShift [b, s, hdim] [0, 0, ws, 0] [bi, x, f] = [bi, x - ws, f] := rfl

theorem look_back_core2 (t : Tensor) (bl ws b nb : Nat) (pv : Option Int) (ikv : Bool)
    (hwf : t.wf) (hbl : 1 ≤ bl) (hnb : 1 ≤ nb) (hs : t.shape = [b, nb * bl]) :
    ∃ u, look_back t bl ws pv ikv = .ok (if ikv then u.transpose (-2) (-1) else u) ∧
      u.shape = [b, nb, ws + bl] ∧
      ∀ bi i j, bi < b → i < nb → j < ws + bl →
        u.entry [bi, i, j] =
          if ws ≤ i * bl + j then t.entry [bi, i * bl + j - ws] else padValueQ pv := by
  have hlen : t.shape.length = 2 := by rw [hs]; rfl
  have hble : bl ≤ nb * bl := Nat.le_mul_of_pos_left bl hnb
  have hpsh : (t.constantPadNd [ws, 0]).shape = [b, ws + nb * bl] := pad2_shape t ws b _ hs
  have hlsh : (lookBackPadded t [ws, 0] pv).shape = [b, ws + nb * bl] := by
    rw [lookBackPadded_shape]
    exact hpsh
  have hcond : 1 < (lookBackPadded t [ws, 0] pv).shape.length ∧ 1 ≤ bl ∧
      ws + bl ≤ (lookBackPadded t [ws, 0] pv).shape.getD 1 0 := by
    rw [hlsh]
    refine ⟨by norm_num, hbl, ?_⟩
    have hg : ([b, ws + nb * bl] : List Nat).getD 1 0 = ws + nb * bl := rfl
    rw [hg]
    omega
  obtain ⟨u, hu_eq, hu_shape, hu_entry⟩ :=
    unfold_spec (lookBackPadded t [ws, 0] pv) 1 (ws + bl) bl hcond
  have hcnt : ((lookBackPadded t [ws, 0] pv).shape.getD 1 0 - (ws + bl)) / bl + 1 = nb := by
    rw [hlsh]
    have hg : ([b, ws + nb * bl] : List Nat).getD 1 0 = ws + nb * bl := rfl
    rw [hg, Nat.add_sub_add_left]
    have hsub : nb * bl - bl = (nb - 1) * bl := by
      rw [Nat.sub_mul, one_mul]
    rw [hsub, Nat.mul_div_cancel _ (by omega : 0 < bl)]
    omega
  have hush : u.shape = [b, nb, ws + bl] := by
    rw [hu_shape, hcnt, hlsh]
    rfl
  have hlb : look_back t bl ws pv ikv = .ok (if ikv then u.transpose (-2) (-1) else u) := by
    unfold look_back
    rw [if_pos (Or.inr hlen)]
    simp only [hlen]
    rw [if_neg (by norm_num : ¬(2 : Nat) = 3), hu_eq]
  refine ⟨u, hlb, hush, ?_⟩
  intro bi i j hbi hi hj
  have hval : IdxValid [bi, i, j] u.shape := by
    rw [hush]
    exact .cons hbi (.cons hi (.cons hj .nil))
  have he := hu_entry [bi, i, j] hval
  have hplen : (lookBackPadded t [ws, 0] pv).shape.length = 2 := by rw [hlsh]; rfl
  rw [hplen] at he
  have hmap : ((List.range 2).map fun d =>
      if d = 1 then ([bi, i, j] : List Nat).getD 1 0 * bl + ([bi, i, j] : List Nat).getD 2 0
      else ([bi, i, j] : List Nat).getD d 0) = [bi, i * bl + j] := rfl
  rw [hmap] at he
  have hx : i * bl + j < ws + nb * bl := by
    have h1 : i * bl ≤ (nb - 1) * bl := Nat.mul_le_mul_right bl (by omega)
    have h2 : (nb - 1) * bl + bl = nb * bl := by
      rw [← Nat.succ_mul]
      congr 1
      omega
    omega
  have hidxp : IdxValid [bi, i * bl + j] (t.constantPadNd [ws, 0]).shape := by
    rw [hpsh]
    exact .cons hbi (.cons hx .nil)
  rw [lookBackPadded_entry t [ws, 0] pv hwf hidxp] at he
  rw [hs] at he
  rw [padShift2] at he
  by_cases hws_le : ws ≤ i * bl + j
  · rw [if_pos ((padRegion2_iff ws b (nb * bl) bi (i * bl + j) hbi hx).mpr hws_le)] at he
    rw [he, if_pos hws_le]
  · rw [if_neg (fun hreg =>
      hws_le ((padRegion2_iff ws b (nb * bl) bi (i * bl + j) hbi hx).mp hreg))] at he
    rw [he, if_neg hws_le]

theorem look_back_core3 (t : Tensor) (bl ws b nb hdim : Nat) (pv : Option Int) (ikv : Bool)
    (hwf : t.wf) (hbl : 1 ≤ bl) (hnb : 1 ≤ nb) (hs : t.shape = [b, nb * bl, hdim]) :
    ∃ u, look_back t bl ws pv ikv = .ok (if ikv then u.transpose (-2) (-1) else u) ∧
      u.shape = [b, nb, hdim, ws + bl] ∧
      ∀ bi i f j, bi < b → i < nb → f < hdim → j < ws + bl →
        u.entry [bi, i, f, j] =
          if ws ≤ i * bl + j then t.entry [bi, i * bl + j - ws, f] else padValueQ pv := by
  have hlen : t.shape.length = 3 := by rw [hs]; rfl
  have hble : bl ≤ nb * bl := Nat.le_mul_of_pos_left bl hnb
  have hpsh : (t.constantPadNd [0, 0, ws, 0]).shape = [b, ws + nb * bl, hdim] :=
    pad3_shape t ws b _ hdim hs
  have hlsh : (lookBackPadded t [0, 0, ws, 0] pv).shape = [b, ws + nb * bl, hdim] := by
    rw [lookBackPadded_shape]
    exact hpsh
  have hcond : 1 < (lookBackPadded t [0, 0, ws, 0] pv).shape.length ∧ 1 ≤ bl ∧
      ws + bl ≤ (lookBackPadded t [0, 0, ws, 0] pv).shape.getD 1 0 := by
    rw [hlsh]
    refine ⟨by norm_num, hbl, ?_⟩
    have hg : ([b, ws + nb * bl, hdim] : List Nat).getD 1 0 = ws + nb * bl := rfl
    rw [hg]
    omega
  obtain ⟨u, hu_eq, hu_shape, hu_entry⟩ :=
    unfold_spec (lookBackPadded t [0, 0, ws, 0] pv) 1 (ws + bl) bl hcond
  have hcnt : ((lookBackPadded t [0, 0, ws, 0] pv).shape.getD 1 0 - (ws + bl)) / bl + 1 = nb := by
    rw [hlsh]
    have hg : ([b, ws + nb * bl, hdim] : List Nat).getD 1 0 = ws + nb * bl := rfl
    rw [hg, Nat.add_sub_add_left]
    have hsub : nb * bl - bl = (nb - 1) * bl := by
      rw [Nat.sub_mul, one_mul]
    rw [hsub, Nat.mul_div_cancel _ (by omega : 0 < bl)]
    omega
  have hush : u.shape = [b, nb, hdim, ws + bl] := by
    rw [hu_shape, hcnt, hlsh]
    rfl
  have hlb : look_back t bl ws pv ikv = .ok (if ikv then u.transpose (-2) (-1) else u) := by
    unfold look_back
    rw [if_pos (Or.inl hlen)]
    simp only [hlen]
    rw [if_pos trivial, hu_eq]
  refine ⟨u, hlb, hush, ?_⟩
  intro bi i f j hbi hi hf hj
  have hval : IdxValid [bi, i, f, j] u.shape := by
    rw [hush]
    exact .cons hbi (.cons hi (.cons hf (.cons hj .nil)))
  have he := hu_entry [bi, i, f, j] hval
  have hplen : (lookBackPadded t [0, 0, ws, 0] pv).shape.length = 3 := by rw [hlsh]; rfl
  rw [hplen] at he
  have hmap : ((List.range 3).map fun d =>
      if d = 1 then ([bi, i, f, j] : List Nat).getD 1 0 * bl + ([bi, i, f, j] : List Nat).getD 3 0
      else ([bi, i, f, j] : List Nat).getD d 0) = [bi, i * bl + j, f] := rfl
  rw [hmap] at he
  have hx : i * bl + j < ws + nb * bl := by
    have h1 : i * bl ≤ (nb - 1) * bl := Nat.mul_le_mul_right bl (by omega)
    have h2 : (nb - 1) * bl + bl = nb * bl := by
      rw [← Nat.succ_mul]
      congr 1
      omega
    omega
  have hidxp : IdxValid [bi, i * bl + j, f] (t.constantPadNd [0, 0, ws, 0]).shape := by
    rw [hpsh]
    exact .cons hbi (.cons hx (.cons hf .nil))
  rw [lookBackPadded_entry t [0, 0, ws, 0] pv hwf hidxp] at he
  rw [hs] at he
  rw [padShift3] at he
  by_cases hws_le : ws ≤ i * bl + j
  · rw [if_pos ((padRegion3_iff ws b (nb * bl) hdim bi (i * bl + j) f hbi hx hf).mpr hws_le)] at he
    rw [he, if_pos hws_le]
  · rw [if_neg (fun hreg =>
      hws_le ((padRegion3_iff ws b (nb * bl) hdim bi (i * bl + j) f hbi hx hf).mp hreg))] at he
    rw [he, if_neg hws_le]

/-! ### Claim theorems -/

/-- C5: for every `sequence_length ≥ 1` and `window_size` with
`1 ≤ window_size ≤ sequence_length`, `get_block_length_and_num_blocks` returns
`(block_length, num_blocks)` where `block_length` is the largest integer not
exceeding `window_size` that divides `sequence_length`, and
`num_blocks = sequence_length / block_length`, so that
`block_length * num_blocks = sequence_length`. -/
theorem get_block_length_spec (seq ws : Nat) (h1 : 1 ≤ ws) (_h2 : ws ≤ seq) :
    ∃ bl nb, get_block_length_and_num_blocks seq ws = some (bl, nb) ∧
      1 ≤ bl ∧ bl ≤ ws ∧ bl ∣ seq ∧ (∀ k, k ≤ ws → k ∣ seq → k ≤ bl) ∧
      nb = seq / bl ∧ bl * nb = seq := by
  obtain ⟨r, hr, hr1, hr2, hr3, hr4⟩ := blockLengthLoop_spec seq ws ws h1 (Nat.le_refl ws)
  have hdvd : r ∣ seq := Nat.dvd_of_mod_eq_zero hr3
  refine ⟨r, seq / r, ?_, hr1, hr2, hdvd, ?_, rfl, Nat.mul_div_cancel' hdvd⟩
  · unfold get_block_length_and_num_blocks
    rw [hr]
  · intro k hk hkd
    by_contra hlt
    push_neg at hlt
    exact hr4 k hlt hk (Nat.mod_eq_zero_of_dvd hkd)

/-- Witness for C5 at `sequence_length = 6`, `window_size = 4`
(the loop settles on block length 3 and 2 blocks). -/
theorem get_block_length_spec_witness :
    1 ≤ 4 ∧ (4 : Nat) ≤ 6 ∧
      (∃ bl nb, get_block_length_and_num_blocks 6 4 = some (bl, nb) ∧
        1 ≤ bl ∧ bl ≤ 4 ∧ bl ∣ 6 ∧ (∀ k, k ≤ 4 → k ∣ 6 → k ≤ bl) ∧
        nb = 6 / bl ∧ bl * nb = 6) :=
  ⟨by decide, by decide, get_block_length_spec 6 4 (by decide) (by decide)⟩

/-- C8: for every `sequence_length ≥ 1` and `window_size ≥ 1` the loop of
`get_block_length_and_num_blocks` terminates (the fuel `window_size` given to
the embedded loop suffices), so the function is total on these inputs. -/
theorem block_length_loop_total (seq ws : Nat) (_h1 : 1 ≤ seq) (h2 : 1 ≤ ws) :
    ∃ p, get_block_length_and_num_blocks seq ws = some p := by
  obtain ⟨r, hr, _⟩ := blockLengthLoop_spec seq ws ws h2 (Nat.le_refl ws)
  refine ⟨(r, seq / r), ?_⟩
  unfold get_block_length_and_num_blocks
  rw [hr]

/-- Witness for C8 at `sequence_length = 2`, `window_size = 5` (the loop also
terminates when the window exceeds the sequence). -/
theorem block_length_loop_total_witness :
    1 ≤ 2 ∧ 1 ≤ 5 ∧ ∃ p, get_block_length_and_num_blocks 2 5 = some p :=
  ⟨by decide, by decide, block_length_loop_total 2 5 (by decide) (by decide)⟩

/-- C2 (evaluation at the failing input): on the rank-3 tensor of shape
[1, 2, 1] with `num_heads = 1` and `attention_head_size = 1`, `split_heads`
succeeds, but `merge_heads` of its result panics in `view` (the merged shape
is computed from the head-split input sizes, `[1, 1] ++ [1*1]`, whose element
count 1 differs from the 2 elements of the permuted tensor), so the round trip
is not the identity. -/
theorem split_merge_roundtrip_fails :
    split_heads tSeq2 1 1 = .ok ⟨[1, 1, 2, 1], [5, 7]⟩ ∧
    (match split_heads tSeq2 1 1 with
      | .ok s => merge_heads s 1 1
      | .error e => .error e) = .error .tchError := by
  constructor
  · decide
  · decide

/-- C3: `attend` returns the pair of an output tensor and an attention-weight
tensor: the weight tensor is the (dropout-applied) softmax of the masked
scores plus the optional additive attention mask, and the output tensor is the
matrix product of the weight tensor with the value tensor.  `attend` is a
total function of its inputs — it never returns an error. -/
theorem attend_structure (sexp : ℚ → ℚ) (attention_dropout : Tensor → Tensor)
    (query key value causal_mask masked_bias : Tensor)
    (attention_mask : Option Tensor) (train : Bool) :
    attend sexp attention_dropout query key value causal_mask masked_bias attention_mask train =
      ((applyT attention_dropout train
          ((withAttentionMask (maskedScores query key causal_mask masked_bias)
            attention_mask).softmaxLast sexp)).matmul value,
        applyT attention_dropout train
          ((withAttentionMask (maskedScores query key causal_mask masked_bias)
            attention_mask).softmaxLast sexp)) := by
  unfold attend maskedScores withAttentionMask
  cases attention_mask <;> rfl

/-- C6: the operations of the module are pure functions: equal arguments give
equal results, and `attend` with `train = false` does not depend on the
dropout module at all (tch dropout is the identity in evaluation mode). -/
theorem ops_deterministic :
    (∀ s w s' w', s = s' → w = w' →
      get_block_length_and_num_blocks s w = get_block_length_and_num_blocks s' w') ∧
    (∀ (t t' : Tensor) bl ws pv ikv, t = t' →
      look_back t bl ws pv ikv = look_back t' bl ws pv ikv) ∧
    (∀ (t t' : Tensor) n d, t = t' → split_heads t n d = split_heads t' n d) ∧
    (∀ (t t' : Tensor) n d, t = t' → merge_heads t n d = merge_heads t' n d) ∧
    (∀ (t t' : Tensor) f1 f2 hid, t = t' →
      split_sequence_length_dim_to t f1 f2 hid = split_sequence_length_dim_to t' f1 f2 hid) ∧
    (∀ (sexp : ℚ → ℚ) (d1 d2 : Tensor → Tensor) q k v cm mb am,
      attend sexp d1 q k v cm mb am false = attend sexp d2 q k v cm mb am false) := by
  refine ⟨?_, ?_, ?_, ?_, ?_, ?_⟩
  · rintro s w _ _ rfl rfl; rfl
  · rintro t _ bl ws pv ikv rfl; rfl
  · rintro t _ n d rfl; rfl
  · rintro t _ n d rfl; rfl
  · rintro t _ f1 f2 hid rfl; rfl
  · intro sexp d1 d2 q k v cm mb am
    unfold attend applyT
    cases am <;> rfl

/-- Witness for C6: two invocations with equal arguments, and `attend` in
evaluation mode under two different dropout actions, at concrete inputs. -/
theorem ops_deterministic_witness :
    get_block_length_and_num_blocks 6 4 = get_block_length_and_num_blocks 6 4 ∧
    attend (fun x => x) (fun _ => tOne) qSmall kSmall vSmall cmTrue mbBias none false =
      attend (fun x => x) (fun t => t) qSmall kSmall vSmall cmTrue mbBias none false :=
  ⟨ops_deterministic.1 6 4 6 4 rfl rfl,
    ops_deterministic.2.2.2.2.2 (fun x => x) (fun _ => tOne) (fun t => t)
      qSmall kSmall vSmall cmTrue mbBias none⟩

/-- C10: on a rank-2 input, `split_sequence_length_dim_to` ignores its
`hidden_size` argument, and a successful result has shape
`[batch_size, dim_factor_1, dim_factor_2]`. -/
theorem split_sequence_hidden_irrelevant (t : Tensor) (f1 f2 hid1 hid2 : Nat)
    (hlen : t.shape.length = 2) :
    split_sequence_length_dim_to t f1 f2 hid1 = split_sequence_length_dim_to t f1 f2 hid2 ∧
    ∀ r, split_sequence_length_dim_to t f1 f2 hid1 = .ok r →
      r.shape = [t.shape.getD 0 0, f1, f2] := by
  have h0 : ¬ t.shape.length = 0 := by omega
  have h3 : ¬ t.shape.length = 3 := by omega
  by_cases hcv : ([t.shape.getD 0 0, f1, f2] : List Nat).prod = t.shape.prod
  · have hval : ∀ hid, split_sequence_length_dim_to t f1 f2 hid =
        .ok ⟨[t.shape.getD 0 0, f1, f2], t.data⟩ := fun hid => by
      simp only [split_sequence_length_dim_to, Tensor.reshape, Tensor.view, if_neg h0,
        if_neg h3, if_pos hlen, if_pos hcv]
    refine ⟨by rw [hval hid1, hval hid2], ?_⟩
    intro r hr
    rw [hval hid1] at hr
    cases hr
    rfl
  · have hval : ∀ hid, split_sequence_length_dim_to t f1 f2 hid = .error .tchError :=
      fun hid => by
      simp only [split_sequence_length_dim_to, Tensor.reshape, Tensor.view, if_neg h0,
        if_neg h3, if_pos hlen, if_neg hcv]
    refine ⟨by rw [hval hid1, hval hid2], ?_⟩
    intro r hr
    rw [hval hid1] at hr
    exact absurd hr (by simp)

/-- Witness for C10 at a [1, 2] tensor with factors 2 and 1 and two different
hidden sizes. -/
theorem split_sequence_hidden_irrelevant_witness :
    tRow2.shape.length = 2 ∧
    (split_sequence_length_dim_to tRow2 2 1 5 = split_sequence_length_dim_to tRow2 2 1 9 ∧
      ∀ r, split_sequence_length_dim_to tRow2 2 1 5 = .ok r →
        r.shape = [tRow2.shape.getD 0 0, 2, 1]) :=
  ⟨by decide, split_sequence_hidden_irrelevant tRow2 2 1 5 9 (by decide)⟩

/-- C9: in `look_back`'s pad-value match, the shift–pad–unshift path for
`Some v` produces exactly the tensor whose padded entries equal `v` and whose
original entries are unchanged; and for `Some 0` and `None` all three branches
produce equal results (the shift–pad–unshift expression at 0 collapses to the
plain zero pad). -/
theorem look_back_pad_shift (t : Tensor) (ps : List Nat) (v : Int) (idx : List Nat)
    (hwf : t.wf) (hidx : IdxValid idx (t.constantPadNd ps).shape) :
    ((lookBackPadded t ps (some v)).entry idx =
      if padRegion t.shape ps idx then t.entry (padShift t.shape ps idx) else (v : ℚ)) ∧
    ((t.subScalar ((0 : Int) : ℚ)).constantPadNd ps).addScalar ((0 : Int) : ℚ) =
      t.constantPadNd ps ∧
    lookBackPadded t ps (some 0) = lookBackPadded t ps none := by
  refine ⟨?_, ?_, rfl⟩
  · have h := lookBackPadded_entry t ps (some v) hwf hidx
    simpa [padValueQ] using h
  · have hsub : t.subScalar ((0 : Int) : ℚ) = t := by
      cases t with
      | mk s dl => simp [Tensor.subScalar, List.map_id']
    have haddz : ∀ u : Tensor, u.addScalar ((0 : Int) : ℚ) = u := by
      intro u
      cases u with
      | mk s dl => simp [Tensor.addScalar, List.map_id']
    rw [hsub, haddz]

/-- Witness for C9: a [1, 2] tensor padded on the left of dimension 1 by one
position with pad value 3, evaluated at the padded position [0, 0]. -/
theorem look_back_pad_shift_witness :
    tRow2b.wf ∧ IdxValid [0, 0] (tRow2b.constantPadNd [1, 0]).shape ∧
    (((lookBackPadded tRow2b [1, 0] (some 3)).entry [0, 0] =
        if padRegion tRow2b.shape [1, 0] [0, 0]
        then tRow2b.entry (padShift tRow2b.shape [1, 0] [0, 0]) else ((3 : Int) : ℚ)) ∧
      ((tRow2b.subScalar ((0 : Int) : ℚ)).constantPadNd [1, 0]).addScalar ((0 : Int) : ℚ) =
        tRow2b.constantPadNd [1, 0] ∧
      lookBackPadded tRow2b [1, 0] (some 0) = lookBackPadded tRow2b [1, 0] none) :=
  ⟨rfl, by decide, look_back_pad_shift tRow2b [1, 0] 3 [0, 0] rfl (by decide)⟩

/-- C4 counterexample: `split_sequence_length_dim_to` on the rank-2 tensor of
shape [1, 1] with factors 2 and 2 has an accepted rank, yet the reshape's
element counts differ, so the call panics inside the library instead of
returning Ok — refuting "for every input of an accepted rank the operation
returns Ok". -/
theorem rank_ok_counterexample :
    tOne.shape.length = 2 ∧
    split_sequence_length_dim_to tOne 2 2 0 = .error .tchError := by
  constructor
  · decide
  · decide

/-- C4 (amended): each operation raises its rank `ValueError` exactly when the
rank check fails and no library panic preempts it (`split_heads` reshapes
before its rank check, so an element-count mismatch panics first;
`split_sequence_length_dim_to` indexes `size()[0]`, so a rank-0 input panics
rather than raising a `ValueError`); an accepted-rank input returns Ok exactly
when the library size conditions hold (element counts match for
`view`/`reshape`; `1 ≤ block_length ≤` the dimension-1 size for `look_back`'s
`unfold`). -/
theorem error_handling_classification (t : Tensor) (bl ws n d f1 f2 hid : Nat)
    (pv : Option Int) (ikv : Bool) :
    ((isValueError (look_back t bl ws pv ikv) = true ↔
        ¬(t.shape.length = 3 ∨ t.shape.length = 2)) ∧
      ((t.shape.length = 3 ∨ t.shape.length = 2) →
        ((∃ r, look_back t bl ws pv ikv = .ok r) ↔
          (1 ≤ bl ∧ bl ≤ t.shape.getD 1 0)))) ∧
    ((split_heads t n d = .error .tchError ↔
        (t.shape.dropLast ++ [n, d]).prod ≠ t.shape.prod) ∧
      (isValueError (split_heads t n d) = true ↔
        ((t.shape.dropLast ++ [n, d]).prod = t.shape.prod ∧
          ¬(t.shape.length = 3 ∨ t.shape.length = 4))) ∧
      ((∃ r, split_heads t n d = .ok r) ↔
        ((t.shape.dropLast ++ [n, d]).prod = t.shape.prod ∧
          (t.shape.length = 3 ∨ t.shape.length = 4)))) ∧
    ((isValueError (merge_heads t n d) = true ↔
        ¬(t.shape.length = 5 ∨ t.shape.length = 4)) ∧
      ((t.shape.length = 5 ∨ t.shape.length = 4) →
        ((∃ r, merge_heads t n d = .ok r) ↔
          (t.shape.take (t.shape.length - 2) ++ [n * d]).prod = t.shape.prod)) ∧
      ((t.shape.length = 5 ∨ t.shape.length = 4) →
        (t.shape.take (t.shape.length - 2) ++ [n * d]).prod ≠ t.shape.prod →
        merge_heads t n d = .error .tchError)) ∧
    ((t.shape.length = 0 → split_sequence_length_dim_to t f1 f2 hid = .error .tchError) ∧
      (isValueError (split_sequence_length_dim_to t f1 f2 hid) = true ↔
        (t.shape.length ≠ 0 ∧ t.shape.length ≠ 2 ∧ t.shape.length ≠ 3)) ∧
      (t.shape.length = 3 →
        ((∃ r, split_sequence_length_dim_to t f1 f2 hid = .ok r) ↔
          ([t.shape.getD 0 0, f1, f2, hid] : List Nat).prod = t.shape.prod)) ∧
      (t.shape.length = 2 →
        ((∃ r, split_sequence_length_dim_to t f1 f2 hid = .ok r) ↔
          ([t.shape.getD 0 0, f1, f2] : List Nat).prod = t.shape.prod))) :=
  ⟨look_back_classify t bl ws pv ikv, split_heads_classify t n d,
    merge_heads_classify t n d, split_seq_classify t f1 f2 hid⟩

/-- Witness for C4 (amended): the `look_back` Ok classification at an accepted
rank-2 input. -/
theorem error_handling_classification_witness :
    (tRow2.shape.length = 3 ∨ tRow2.shape.length = 2) ∧
    ((∃ r, look_back tRow2 1 1 none false = .ok r) ↔
      (1 ≤ 1 ∧ 1 ≤ tRow2.shape.getD 1 0)) :=
  ⟨Or.inr (by decide),
    (error_handling_classification tRow2 1 1 1 1 2 1 1 none false).1.2 (Or.inr (by decide))⟩

/-- C1 counterexample: with `attention_head_size = 4` and all-ones query and
key, the pre-softmax masked attention score of `attend` is the raw dot product
4, not the claimed `1/sqrt(4) = 1/2`-scaled value 2: `attend` applies no
scaling. -/
theorem attend_unscaled_counterexample :
    (maskedScores qOnes kOnes cmTrue mbBias).entry [0, 0] = 4 ∧
    (1 / 2 : ℚ) *
      (((List.range 4).map fun l => qOnes.entry [0, l] * kOnes.entry [0, l]).sum) = 2 ∧
    ¬((4 : ℚ) = 2) := by
  have hq : qOnes.shape = ([] : List Nat) ++ [1, 4] := rfl
  have hk : kOnes.shape = ([] : List Nat) ++ [1, 4] := rfl
  have hkT : (kOnes.transpose (-1) (-2)).shape = ([] : List Nat) ++ [4, 1] :=
    transpose_m1_m2_shape hk
  have hmm_sh : (qOnes.matmul (kOnes.transpose (-1) (-2))).shape = ([] : List Nat) ++ [1, 1] :=
    matmul_shape hq hkT
  have hsum : (((List.range 4).map fun l =>
      qOnes.entry [0, l] * kOnes.entry [0, l]).sum) = 4 := by
    have hr4 : List.range 4 = [0, 1, 2, 3] := rfl
    rw [hr4]
    simp only [List.map_cons, List.map_nil, List.sum_cons, List.sum_nil]
    have e0 : qOnes.entry [0, 0] = 1 := by decide
    have e1 : qOnes.entry [0, 1] = 1 := by decide
    have e2 : qOnes.entry [0, 2] = 1 := by decide
    have e3 : qOnes.entry [0, 3] = 1 := by decide
    have g0 : kOnes.entry [0, 0] = 1 := by decide
    have g1 : kOnes.entry [0, 1] = 1 := by decide
    have g2 : kOnes.entry [0, 2] = 1 := by decide
    have g3 : kOnes.entry [0, 3] = 1 := by decide
    rw [e0, e1, e2, e3, g0, g1, g2, g3]
    norm_num
  refine ⟨?_, ?_, by norm_num⟩
  · have hv : IdxValid [0, 0] (qOnes.matmul (kOnes.transpose (-1) (-2))).shape := by
      rw [hmm_sh]
      decide
    unfold maskedScores
    rw [where1_entry _ _ _ hv]
    rw [if_pos (show cmTrue.entry [0, 0] ≠ 0 by decide)]
    have hmm_e := matmul_entry hq hkT (i := 0) (j := 0)
      List.Forall₂.nil (by norm_num) (by norm_num)
    have hmap : ((List.range 4).map fun l =>
        qOnes.entry (([] : List Nat) ++ [0, l]) *
          (kOnes.transpose (-1) (-2)).entry (([] : List Nat) ++ [l, 0])) =
        ((List.range 4).map fun l => qOnes.entry [0, l] * kOnes.entry [0, l]) := by
      apply List.map_congr_left
      intro l hl
      have ht := transpose_m1_m2_entry hk (i := l) (j := 0)
        List.Forall₂.nil (List.mem_range.mp hl) (by norm_num)
      rw [ht]
      rfl
    rw [show ([0, 0] : List Nat) = ([] : List Nat) ++ [0, 0] from rfl, hmm_e, hmap, hsum]
  · rw [hsum]
    norm_num

/-- C1 (amended): the pre-softmax attention scores of `attend` equal the raw
(unscaled) dot products `query·keyᵀ` at positions where the causal mask is
nonzero and `masked_bias` elsewhere; softmax (after the optional additive
attention mask, then dropout) is applied to exactly these scores. -/
theorem attend_masked_scores (query key causal_mask masked_bias : Tensor)
    (base : List Nat) (m p n : Nat)
    (hq : query.shape = base ++ [m, p]) (hk : key.shape = base ++ [n, p]) :
    (∀ (sexp : ℚ → ℚ) (attention_dropout : Tensor → Tensor) value attention_mask train,
      (attend sexp attention_dropout query key value causal_mask masked_bias
          attention_mask train).2 =
        applyT attention_dropout train
          ((withAttentionMask (maskedScores query key causal_mask masked_bias)
            attention_mask).softmaxLast sexp)) ∧
    ∀ rest i j, IdxValid rest base → i < m → j < n →
      (maskedScores query key causal_mask masked_bias).entry (rest ++ [i, j]) =
        if causal_mask.entry (rest ++ [i, j]) ≠ 0
        then ((List.range p).map fun l =>
          query.entry (rest ++ [i, l]) * key.entry (rest ++ [j, l])).sum
        else masked_bias.entry (rest ++ [i, j]) := by
  constructor
  · intro sexp attention_dropout value am train
    unfold attend maskedScores withAttentionMask
    cases am <;> rfl
  · intro rest i j hrest hi hj
    have hkT : (key.transpose (-1) (-2)).shape = base ++ [p, n] := transpose_m1_m2_shape hk
    have hmm_sh : (query.matmul (key.transpose (-1) (-2))).shape = base ++ [m, n] :=
      matmul_shape hq hkT
    have hv : IdxValid (rest ++ [i, j]) (query.matmul (key.transpose (-1) (-2))).shape := by
      rw [hmm_sh]
      exact idxValid_append2 hrest hi hj
    unfold maskedScores
    rw [where1_entry _ _ _ hv]
    have hmap : ((List.range p).map fun l =>
        query.entry (rest ++ [i, l]) * (key.transpose (-1) (-2)).entry (rest ++ [l, j])) =
        ((List.range p).map fun l => query.entry (rest ++ [i, l]) * key.entry (rest ++ [j, l])) := by
      apply List.map_congr_left
      intro l hl
      rw [transpose_m1_m2_entry hk hrest (List.mem_range.mp hl) hj]
    rw [matmul_entry hq hkT hrest hi hj, hmap]

/-- Witness for C1 (amended) at 1×1 query and key. -/
theorem attend_masked_scores_witness :
    qSmall.shape = ([] : List Nat) ++ [1, 1] ∧ kSmall.shape = ([] : List Nat) ++ [1, 1] ∧
    ((∀ (sexp : ℚ → ℚ) (attention_dropout : Tensor → Tensor) value attention_mask train,
        (attend sexp attention_dropout qSmall kSmall value cmTrue mbBias
            attention_mask train).2 =
          applyT attention_dropout train
            ((withAttentionMask (maskedScores qSmall kSmall cmTrue mbBias)
              attention_mask).softmaxLast sexp)) ∧
      ∀ rest i j, IdxValid rest ([] : List Nat) → i < 1 → j < 1 →
        (maskedScores qSmall kSmall cmTrue mbBias).entry (rest ++ [i, j]) =
          if cmTrue.entry (rest ++ [i, j]) ≠ 0
          then ((List.range 1).map fun l =>
            qSmall.entry (rest ++ [i, l]) * kSmall.entry (rest ++ [j, l])).sum
          else mbBias.entry (rest ++ [i, j])) :=
  ⟨rfl, rfl, attend_masked_scores qSmall kSmall cmTrue mbBias [] 1 1 1 rfl rfl⟩

/-- C7 counterexample: on the 1×0 tensor (so `num_blocks = 0` with
`block_length = 1`) and `window_size = 1`, `look_back` builds no blocks: the
unfold window of length 2 exceeds the padded dimension of length 1 and the
call panics inside the library, so no result tensor with a block axis exists. -/
theorem look_back_empty_counterexample :
    tEmpty.shape = [1, 0 * 1] ∧ look_back tEmpty 1 1 none false = .error .tchError := by
  constructor
  · decide
  · decide

/-- C7 (amended): for every rank-2 or rank-3 input whose dimension 1 has
length `num_blocks * block_length`, with `window_size ≥ 1`, `block_length ≥ 1`
and `num_blocks ≥ 1`, `look_back` returns a tensor with a block axis of length
`num_blocks` (axis 1), blocks of length `window_size + block_length` along the
window axis, and element `j` of block `i` equal to the input at sequence
position `i*block_length - window_size + j` when that is nonnegative and the
pad value (0 for `None`) otherwise; when `is_key_value` is set the window and
trailing axes are additionally transposed. -/
theorem look_back_blocks (t : Tensor) (bl ws nb b hdim : Nat) (pv : Option Int) (ikv : Bool)
    (hwf : t.wf) (hbl : 1 ≤ bl) (_hws : 1 ≤ ws) (hnb : 1 ≤ nb) :
    (t.shape = [b, nb * bl] →
      ∃ r, look_back t bl ws pv ikv = .ok r ∧
        r.shape = (if ikv then [b, ws + bl, nb] else [b, nb, ws + bl]) ∧
        ∀ bi i j, bi < b → i < nb → j < ws + bl →
          r.entry (if ikv then [bi, j, i] else [bi, i, j]) =
            if ws ≤ i * bl + j then t.entry [bi, i * bl + j - ws] else padValueQ pv) ∧
    (t.shape = [b, nb * bl, hdim] →
      ∃ r, look_back t bl ws pv ikv = .ok r ∧
        r.shape = (if ikv then [b, nb, ws + bl, hdim] else [b, nb, hdim, ws + bl]) ∧
        ∀ bi i f j, bi < b → i < nb → f < hdim → j < ws + bl →
          r.entry (if ikv then [bi, i, j, f] else [bi, i, f, j]) =
            if ws ≤ i * bl + j then t.entry [bi, i * bl + j - ws, f] else padValueQ pv) := by
  constructor
  · intro hs
    obtain ⟨u, hlb, hush, hent⟩ := look_back_core2 t bl ws b nb pv ikv hwf hbl hnb hs
    refine ⟨if ikv then u.transpose (-2) (-1) else u, hlb, ?_, ?_⟩
    · cases ikv with
      | false => exact hush
      | true =>
        exact transpose_m2_m1_shape (x := nb) (y := ws + bl)
          (show u.shape = [b] ++ [nb, ws + bl] from hush)
    · intro bi i j hbi hi hj
      cases ikv with
      | false => exact hent bi i j hbi hi hj
      | true =>
        have ht := transpose_m2_m1_entry (x := nb) (y := ws + bl)
          (show u.shape = [b] ++ [nb, ws + bl] from hush)
          (i := j) (j := i)
          (List.Forall₂.cons hbi List.Forall₂.nil) hj hi
        exact ht.trans (hent bi i j hbi hi hj)
  · intro hs
    obtain ⟨u, hlb, hush, hent⟩ := look_back_core3 t bl ws b nb hdim pv ikv hwf hbl hnb hs
    refine ⟨if ikv then u.transpose (-2) (-1) else u, hlb, ?_, ?_⟩
    · cases ikv with
      | false => exact hush
      | true =>
        exact transpose_m2_m1_shape (x := hdim) (y := ws + bl)
          (show u.shape = [b, nb] ++ [hdim, ws + bl] from hush)
    · intro bi i f j hbi hi hf hj
      cases ikv with
      | false => exact hent bi i f j hbi hi hf hj
      | true =>
        have ht := transpose_m2_m1_entry (x := hdim) (y := ws + bl)
          (show u.shape = [b, nb] ++ [hdim, ws + bl] from hush)
          (i := j) (j := f)
          (List.Forall₂.cons hbi (List.Forall₂.cons hi List.Forall₂.nil)) hj hf
        exact ht.trans (hent bi i f j hbi hi hf hj)

/-- Witness for C7 (amended) at a [1, 2] tensor with block length 1, window
size 1 and 2 blocks. -/
theorem look_back_blocks_witness :
    tRow2.wf ∧ 1 ≤ 1 ∧ 1 ≤ 2 ∧ tRow2.shape = [1, 2 * 1] ∧
    (∃ r, look_back tRow2 1 1 none false = .ok r ∧
      r.shape = (if false then [1, 1 + 1, 2] else [1, 2, 1 + 1]) ∧
      ∀ bi i j, bi < 1 → i < 2 → j < 1 + 1 →
        r.entry (if false then [bi, j, i] else [bi, i, j]) =
          if 1 ≤ i * 1 + j then tRow2.entry [bi, i * 1 + j - 1] else padValueQ none) :=
  ⟨rfl, by decide, by decide, rfl,
    (look_back_blocks tRow2 1 1 2 1 0 none false rfl (by decide) (by decide) (by decide)).1 rfl⟩
